import Mathlib

/-!
Verification of the WellnessReset free-slot finder.

This file gives a shallow embedding of the slot-finding core of the
repository (src/services/CalendarService.ts) and of the sync-time
filtering and fallback logic (src/screens/HomeScreen.tsx), and proves
or refutes the specified properties.

Modelling conventions:
- A JS `Date` is modelled as an integer count of milliseconds from a
  fixed local midnight.  Calendar days are uniform 24-hour spans
  (daylight-saving shifts are out of scope), so the JS operations
  `setHours(0,0,0,0)`, `setHours(h,0,0,0)` and `setDate(d + k)` become
  integer arithmetic on multiples of `msPerDay`.
- `Math.round(x)` for `x = n / 60000` with integer `n` equals
  `⌊(n + 30000) / 60000⌋`; with Mathlib in scope, `/` on `Int` is
  floor division for positive divisors, so it is written directly.
- The `while` loops of `findFreeSlots` are written with an explicit
  fuel argument.  The fuel chosen at each call site is sufficient for
  every well-formed configuration; that sufficiency is itself one of
  the proved theorems (the termination claim).
- The internal wall-clock read `const now = new Date()` at
  CalendarService.ts:151 is modelled as an explicit input `now` of
  `findFreeSlots`; the same applies to the `new Date()` read in the
  sync routine of HomeScreen.tsx.
- String-valued fields that the algorithms never inspect (titles,
  mood metadata, locations) are omitted from the record types; the
  fields the algorithms read are kept with their source names.
-/

namespace WellnessReset

/-- Milliseconds in one minute. -/
def msPerMinute : Int := 60000

/-- Milliseconds in one hour. -/
def msPerHour : Int := 3600000

/-- Milliseconds in one (uniform) day. -/
def msPerDay : Int := 86400000

/-- `startOfDay` (CalendarService.ts:345): midnight of the day containing `t`. -/
def startOfDay (t : Int) : Int := t - t % msPerDay

/-- `addDays` (CalendarService.ts:352), under uniform 24-hour days. -/
def addDays (t : Int) (days : Int) : Int := t + days * msPerDay

/-- `setHour` (CalendarService.ts:359): the given hour of the day of `t`,
with minutes, seconds and milliseconds zeroed. -/
def setHour (t : Int) (hour : Int) : Int := startOfDay t + hour * msPerHour

/-- `diffMinutes` (CalendarService.ts:366):
`Math.max(0, Math.round((end - start) / 60000))`. -/
def diffMinutes (start stop : Int) : Int := max 0 ((stop - start + 30000) / 60000)

/-- `isSameDay` (CalendarService.ts:371): two instants fall on the same
calendar day. -/
def isSameDay (value reference : Int) : Bool :=
  decide (startOfDay value = startOfDay reference)

/-- `rangesOverlap` (CalendarService.ts:380): strict half-open interval
overlap test. -/
def rangesOverlap (startA endA startB endB : Int) : Bool :=
  decide (startA < endB ∧ startB < endA)

/-- `BusyEvent` (CalendarService.ts:12): a calendar event.  Only the fields
read by the slot algorithms are modelled; `startDate` and `endDate` are the
parsed `Date` values. -/
structure BusyEvent where
  id : String
  startDate : Int
  endDate : Int
  deriving Repr, DecidableEq

/-- Status of a suggested slot (CalendarService.ts:34). -/
inductive SlotStatus where
  | available
  | added
  deriving Repr, DecidableEq

/-- `SuggestedSlot` (CalendarService.ts:29): a free time window. -/
structure SuggestedSlot where
  id : String
  startDate : Int
  endDate : Int
  durationMinutes : Int
  status : SlotStatus
  deriving Repr, DecidableEq

/-- `FreeSlotConfig` (CalendarService.ts:58). -/
structure FreeSlotConfig where
  days : Int
  minMinutes : Int
  maxMinutes : Int
  dayStartHour : Int
  dayEndHour : Int
  deriving Repr, DecidableEq

/-- `DEFAULT_FREE_SLOT_CONFIG` (CalendarService.ts:66). -/
def DEFAULT_FREE_SLOT_CONFIG : FreeSlotConfig :=
  { days := 3, minMinutes := 15, maxMinutes := 30, dayStartHour := 7, dayEndHour := 21 }

/-- `buildSlot` (CalendarService.ts:318): a slot from an anchor instant and a
duration; the id is the template literal
`anchor.getTime() + "-" + durationMinutes`. -/
def buildSlot (anchor : Int) (durationMinutes : Int) : SuggestedSlot :=
  { id := toString anchor ++ "-" ++ toString durationMinutes
    startDate := anchor
    endDate := anchor + durationMinutes * 60000
    durationMinutes := durationMinutes
    status := SlotStatus.available }

/-- `chooseDuration` (CalendarService.ts:333): `none` models the `null`
return for gaps below the minimum. -/
def chooseDuration (gapMinutes : Int) (config : FreeSlotConfig) : Option Int :=
  if gapMinutes < config.minMinutes then none
  else if config.maxMinutes ≤ gapMinutes then some config.maxMinutes
  else some config.minMinutes

/-- Fuel for one carving `while` loop.  Any value large enough to outlast the
loop works; this bound is proved sufficient for every configuration with
`1 ≤ minMinutes ≤ maxMinutes` (see the termination theorem). -/
def carveFuel (gapStart gapEnd : Int) : Nat :=
  ((gapEnd - gapStart).toNat + 30000) / 60000 + 1

/-- One carving `while` loop of `findFreeSlots`
(CalendarService.ts:181-189 and 201-208): starting from `gapStart`, carve
slots toward `gapEnd` while the remaining rounded gap is at least
`minMinutes` and fewer than 10 slots exist, pushing each slot only when its
start is not before `now`.  The JS guard `if (!slotDuration) break` breaks
on both `null` and `0`. -/
def carveLoop (config : FreeSlotConfig) (now gapEnd : Int) :
    Nat → Int → List SuggestedSlot → List SuggestedSlot
  | 0, _, slots => slots
  | fuel + 1, gapStart, slots =>
    let remaining := diffMinutes gapStart gapEnd
    if config.minMinutes ≤ remaining ∧ slots.length < 10 then
      match chooseDuration remaining config with
      | none => slots
      | some slotDuration =>
        if slotDuration = 0 then slots
        else
          let slot := buildSlot gapStart slotDuration
          let slots1 := if now ≤ slot.startDate then slots ++ [slot] else slots
          carveLoop config now gapEnd fuel (gapStart + slotDuration * 60000) slots1
    else slots

/-- Initial scan cursor of a day (CalendarService.ts:163): on day offset 0 it
is clamped to `max(now, windowStart)`; later offsets start at `windowStart`. -/
def initialCursor (dayOffset : Nat) (now windowStart : Int) : Int :=
  if dayOffset = 0 then max now windowStart else windowStart

/-- Body of `todaysEvents.forEach` (CalendarService.ts:168-195): carve the gap
between the cursor and the event start, then advance the cursor to the event
end if it is later. -/
def processEvent (config : FreeSlotConfig) (now : Int)
    (state : List SuggestedSlot × Int) (event : BusyEvent) :
    List SuggestedSlot × Int :=
  let slots := state.1
  let cursor := state.2
  let eventStart := event.startDate
  let eventEnd := event.endDate
  let slots1 :=
    if cursor < eventStart then
      carveLoop config now eventStart (carveFuel cursor eventStart) cursor slots
    else slots
  let cursor1 := if cursor < eventEnd then eventEnd else cursor
  (slots1, cursor1)

/-- Window start of the day at a given offset from `now`. -/
def dayWindowStart (config : FreeSlotConfig) (now : Int) (dayOffset : Nat) : Int :=
  setHour (startOfDay (addDays now dayOffset)) config.dayStartHour

/-- Window end of the day at a given offset from `now`. -/
def dayWindowEnd (config : FreeSlotConfig) (now : Int) (dayOffset : Nat) : Int :=
  setHour (startOfDay (addDays now dayOffset)) config.dayEndHour

/-- One iteration of the day loop of `findFreeSlots`
(CalendarService.ts:154-210): filter the events of the day, walk them in
list order carving gaps, then carve the remaining window tail. -/
def processDay (busyEvents : List BusyEvent) (config : FreeSlotConfig) (now : Int)
    (slots : List SuggestedSlot) (dayOffset : Nat) : List SuggestedSlot :=
  let dayStart := startOfDay (addDays now dayOffset)
  let windowStart := setHour dayStart config.dayStartHour
  let windowEnd := setHour dayStart config.dayEndHour
  let cursor0 := initialCursor dayOffset now windowStart
  let todaysEvents := busyEvents.filter fun e => isSameDay e.startDate dayStart
  let r := todaysEvents.foldl (processEvent config now) (slots, cursor0)
  if r.2 < windowEnd then
    carveLoop config now windowEnd (carveFuel r.2 windowEnd) r.2 r.1
  else r.1

/-- `findFreeSlots` (CalendarService.ts:146-213).  The argument `now` models
the internal wall-clock read `const now = new Date()` at line 151 (the TS
signature takes only `busyEvents` and `config`). -/
def findFreeSlots (busyEvents : List BusyEvent) (config : FreeSlotConfig)
    (now : Int) : List SuggestedSlot :=
  ((List.range config.days.toNat).foldl (processDay busyEvents config now) []).take 10

/-- `hasConflict` (CalendarService.ts:222). -/
def hasConflict (busyEvents : List BusyEvent) (start stop : Int) : Bool :=
  busyEvents.any fun event => rangesOverlap start stop event.startDate event.endDate

/-- `CONSTS.CALENDAR.MIN_FUTURE_BUFFER_MINUTES` (constants/app.ts). -/
def minFutureBufferMinutes : Int := 15

/-- End of the current day, `23:59:59.999` (HomeScreen.tsx:299-307). -/
def endOfToday (now : Int) : Int := startOfDay now + msPerDay - 1

/-- Sync-time filter (HomeScreen.tsx:309-314): keep slots that start at least
the future buffer after `now`, start today, and end today. -/
def filterToday (free : List SuggestedSlot) (now : Int) : List SuggestedSlot :=
  let minStart := now + minFutureBufferMinutes * 60000
  free.filter fun slot =>
    decide (minStart ≤ slot.startDate ∧ startOfDay now ≤ slot.startDate ∧
      slot.endDate ≤ endOfToday now)

/-- Minutes between `now + buffer` and the end of the day
(HomeScreen.tsx:319-321), with the `Math.floor` of the JS source. -/
def minutesLeft (now : Int) : Int :=
  (endOfToday now - (now + minFutureBufferMinutes * 60000)) / 60000

/-- Sync-time fallback (HomeScreen.tsx:317-335): when no slot survives the
filter, synthesize a single slot of `max(0, min(30, minutesLeft))` minutes
starting at `now + 15min`, provided that duration is at least 15 minutes. -/
def fallbackSlots (free : List SuggestedSlot) (now : Int) : List SuggestedSlot :=
  let minStart := now + minFutureBufferMinutes * 60000
  let filtered := filterToday free now
  if filtered.length = 0 then
    let duration := max 0 (min 30 (minutesLeft now))
    if 15 ≤ duration then
      [{ id := toString minStart ++ "-fallback"
         startDate := minStart
         endDate := minStart + duration * 60000
         durationMinutes := duration
         status := SlotStatus.available }]
    else filtered
  else filtered

/-! Helper lemmas about the date utilities. -/

theorem startOfDay_le (t : Int) : startOfDay t ≤ t := by
  unfold startOfDay msPerDay; omega

theorem lt_startOfDay_add (t : Int) : t < startOfDay t + msPerDay := by
  unfold startOfDay msPerDay; omega

theorem startOfDay_idem (t : Int) : startOfDay (startOfDay t) = startOfDay t := by
  unfold startOfDay msPerDay; omega

theorem minuteAligned_startOfDay (t : Int) : (60000 : Int) ∣ startOfDay t := by
  unfold startOfDay msPerDay; omega

theorem day_disjoint (t u : Int) (h : startOfDay t ≠ startOfDay u) :
    startOfDay t + msPerDay ≤ startOfDay u ∨ startOfDay u + msPerDay ≤ startOfDay t := by
  unfold startOfDay msPerDay at *; omega

theorem minuteAligned_setHour (t h : Int) : (60000 : Int) ∣ setHour t h := by
  unfold setHour startOfDay msPerHour msPerDay; omega

theorem startOfDay_le_setHour (t h : Int) (hh : 0 ≤ h) : startOfDay t ≤ setHour t h := by
  unfold setHour msPerHour; omega

theorem setHour_le_day_end (t h : Int) (hh : h ≤ 24) :
    setHour t h ≤ startOfDay t + msPerDay := by
  unfold setHour msPerHour msPerDay; omega

/-! Helper lemmas about `chooseDuration` and the carving loop. -/

theorem chooseDuration_some (g : Int) (config : FreeSlotConfig) (d : Int)
    (h : chooseDuration g config = some d) :
    (d = config.minMinutes ∨ d = config.maxMinutes) ∧ config.minMinutes ≤ g ∧ d ≤ g := by
  unfold chooseDuration at h
  split_ifs at h with h1 h2 <;> simp_all

/-- Every slot a carving loop adds was built by `buildSlot`, starts no
earlier than `now`, and has the minimal or the maximal duration. -/
theorem mem_carveLoop (config : FreeSlotConfig) (now gapEnd : Int) :
    ∀ fuel gapStart slots s, s ∈ carveLoop config now gapEnd fuel gapStart slots →
      s ∈ slots ∨
        (s = buildSlot s.startDate s.durationMinutes ∧ now ≤ s.startDate ∧
         (s.durationMinutes = config.minMinutes ∨ s.durationMinutes = config.maxMinutes)) := by
  intro fuel
  induction fuel with
  | zero => intro gs slots s hs; exact Or.inl hs
  | succ f ih =>
    intro gs slots s hs
    rw [carveLoop] at hs
    split at hs
    · split at hs
      · exact Or.inl hs
      · rename_i d hd
        split at hs
        · exact Or.inl hs
        · rcases ih _ _ _ hs with h1 | h1
          · split at h1
            · rcases List.mem_append.1 h1 with h2 | h2
              · exact Or.inl h2
              · rw [List.mem_singleton] at h2
                subst h2
                exact Or.inr ⟨rfl, by assumption, (chooseDuration_some _ _ _ hd).1⟩
            · exact Or.inl h1
          · exact Or.inr h1
    · exact Or.inl hs

/-- With a well-formed configuration and minute-aligned bounds, every slot a
carving loop adds lies inside the gap `[gapStart, gapEnd]`. -/
theorem mem_carveLoop_bounds (config : FreeSlotConfig) (now gapEnd : Int)
    (hmin : 1 ≤ config.minMinutes) (hminmax : config.minMinutes ≤ config.maxMinutes)
    (hge : (60000 : Int) ∣ gapEnd) :
    ∀ fuel gapStart slots s, (60000 : Int) ∣ gapStart →
      s ∈ carveLoop config now gapEnd fuel gapStart slots →
      s ∈ slots ∨ (gapStart ≤ s.startDate ∧ s.endDate ≤ gapEnd) := by
  intro fuel
  induction fuel with
  | zero => intro gs slots s _ hs; exact Or.inl hs
  | succ f ih =>
    intro gs slots s hgs hs
    rw [carveLoop] at hs
    split at hs
    · rename_i hguard
      split at hs
      · exact Or.inl hs
      · rename_i d hd
        split at hs
        · exact Or.inl hs
        · obtain ⟨hdval, _, hdle⟩ := chooseDuration_some _ _ _ hd
          have hd1 : 1 ≤ d := by rcases hdval with h | h <;> omega
          have hdgap : gs + d * 60000 ≤ gapEnd := by
            have := hguard.1
            unfold diffMinutes at hdle
            omega
          have hgs2 : (60000 : Int) ∣ (gs + d * 60000) := by omega
          rcases ih _ _ _ hgs2 hs with h1 | h1
          · split at h1
            · rcases List.mem_append.1 h1 with h2 | h2
              · exact Or.inl h2
              · rw [List.mem_singleton] at h2
                subst h2
                exact Or.inr ⟨le_refl _, hdgap⟩
            · exact Or.inl h1
          · exact Or.inr ⟨by omega, h1.2⟩
    · exact Or.inl hs

/-- A gap whose rounded length is below the minimum yields no slot at all. -/
theorem carveLoop_short_gap (config : FreeSlotConfig) (now gapEnd : Int)
    (fuel : Nat) (gapStart : Int) (slots : List SuggestedSlot)
    (h : diffMinutes gapStart gapEnd < config.minMinutes) :
    carveLoop config now gapEnd fuel gapStart slots = slots := by
  cases fuel with
  | zero => rfl
  | succ f =>
    rw [carveLoop]
    rw [if_neg]
    intro hc
    exact absurd hc.1 (not_le.2 h)

/-- The fuel bound of `carveFuel` is exact: for a well-formed configuration
the loop exits through its own guard before the fuel runs out, so any extra
fuel leaves the result unchanged.  This is the termination argument for the
carving `while` loops. -/
theorem carveLoop_fuel_stable (config : FreeSlotConfig) (now gapEnd : Int)
    (hmin : 1 ≤ config.minMinutes) (hminmax : config.minMinutes ≤ config.maxMinutes) :
    ∀ fuel gapStart slots, carveFuel gapStart gapEnd ≤ fuel → ∀ extra,
      carveLoop config now gapEnd (fuel + extra) gapStart slots =
        carveLoop config now gapEnd fuel gapStart slots := by
  intro fuel
  induction fuel with
  | zero => intro gs slots hf; unfold carveFuel at hf; omega
  | succ f ih =>
    intro gs slots hf extra
    rw [Nat.add_right_comm]
    rw [carveLoop, carveLoop]
    split
    · rename_i hguard
      split
      · rfl
      · rename_i d hd
        split
        · rfl
        · obtain ⟨hdval, _, hdle⟩ := chooseDuration_some _ _ _ hd
          have hd1 : 1 ≤ d := by rcases hdval with h | h <;> omega
          have hgap : 30000 ≤ gapEnd - gs := by
            have := hguard.1
            unfold diffMinutes at this
            omega
          apply ih
          unfold carveFuel at hf ⊢
          omega
    · rfl

/-! Helper lemmas about the per-day event walk. -/

/-- Unfolded form of one `processEvent` step. -/
theorem processEvent_eq (config : FreeSlotConfig) (now : Int)
    (slots : List SuggestedSlot) (cursor : Int) (e : BusyEvent) :
    processEvent config now (slots, cursor) e =
      ((if cursor < e.startDate then
          carveLoop config now e.startDate (carveFuel cursor e.startDate) cursor slots
        else slots),
       (if cursor < e.endDate then e.endDate else cursor)) := rfl

/-- Walking a list of minute-aligned events keeps the cursor minute-aligned
and non-decreasing, moves it past every event end, and every new slot starts
at or after the initial cursor and ends at or before the start of one of the
walked events. -/
theorem foldl_processEvent_facts (config : FreeSlotConfig) (now : Int)
    (hmin : 1 ≤ config.minMinutes) (hminmax : config.minMinutes ≤ config.maxMinutes) :
    ∀ (events : List BusyEvent),
      (∀ e ∈ events, (60000 : Int) ∣ e.startDate ∧ (60000 : Int) ∣ e.endDate) →
      ∀ slots cursor, (60000 : Int) ∣ cursor →
      (60000 : Int) ∣ (List.foldl (processEvent config now) (slots, cursor) events).2 ∧
      cursor ≤ (List.foldl (processEvent config now) (slots, cursor) events).2 ∧
      (∀ e ∈ events,
        e.endDate ≤ (List.foldl (processEvent config now) (slots, cursor) events).2) ∧
      (∀ s ∈ (List.foldl (processEvent config now) (slots, cursor) events).1,
        s ∈ slots ∨ (cursor ≤ s.startDate ∧ ∃ e ∈ events, s.endDate ≤ e.startDate)) := by
  intro events
  induction events with
  | nil =>
    intro _ slots cursor hc
    exact ⟨hc, le_refl _, by simp, fun s hs => Or.inl hs⟩
  | cons e es ih =>
    intro hal slots cursor hc
    rw [List.foldl_cons, processEvent_eq]
    have he := hal e (List.mem_cons_self e es)
    have hal' : ∀ x ∈ es, (60000 : Int) ∣ x.startDate ∧ (60000 : Int) ∣ x.endDate :=
      fun x hx => hal x (List.mem_cons_of_mem _ hx)
    have hc1 : (60000 : Int) ∣ (if cursor < e.endDate then e.endDate else cursor) := by
      split <;> [exact he.2; exact hc]
    have hcle : cursor ≤ (if cursor < e.endDate then e.endDate else cursor) := by
      split <;> omega
    have hece : e.endDate ≤ (if cursor < e.endDate then e.endDate else cursor) := by
      split <;> omega
    obtain ⟨ra, rb, rc, rd⟩ := ih hal' _ _ hc1
    refine ⟨ra, le_trans hcle rb, ?_, ?_⟩
    · intro x hx
      rcases List.mem_cons.1 hx with h | h
      · subst h; exact le_trans hece rb
      · exact rc x h
    · intro s hs
      rcases rd s hs with h1 | h1
      · by_cases hlt : cursor < e.startDate
        · rw [if_pos hlt] at h1
          rcases mem_carveLoop_bounds config now e.startDate hmin hminmax he.1 _ _ _ _
              hc h1 with h2 | h2
          · exact Or.inl h2
          · exact Or.inr ⟨h2.1, e, List.mem_cons_self e es, h2.2⟩
        · rw [if_neg hlt] at h1
          exact Or.inl h1
      · obtain ⟨hcs, e', he', hse⟩ := h1
        exact Or.inr ⟨le_trans hcle hcs, e', List.mem_cons_of_mem _ he', hse⟩

/-- With the events additionally sorted by start, no new slot overlaps any of
the walked events. -/
theorem foldl_processEvent_sorted (config : FreeSlotConfig) (now : Int)
    (hmin : 1 ≤ config.minMinutes) (hminmax : config.minMinutes ≤ config.maxMinutes) :
    ∀ (events : List BusyEvent),
      events.Pairwise (fun a b => a.startDate ≤ b.startDate) →
      (∀ e ∈ events, (60000 : Int) ∣ e.startDate ∧ (60000 : Int) ∣ e.endDate) →
      ∀ slots cursor, (60000 : Int) ∣ cursor →
      (∀ s ∈ (List.foldl (processEvent config now) (slots, cursor) events).1,
        s ∈ slots ∨
          (cursor ≤ s.startDate ∧ (∃ e ∈ events, s.endDate ≤ e.startDate) ∧
           ∀ b ∈ events, ¬(s.startDate < b.endDate ∧ b.startDate < s.endDate))) := by
  intro events
  induction events with
  | nil => intro _ _ slots cursor _ s hs; exact Or.inl hs
  | cons e es ih =>
    intro hsort hal slots cursor hc s hs
    rw [List.foldl_cons, processEvent_eq] at hs
    have he := hal e (List.mem_cons_self e es)
    have hal' : ∀ x ∈ es, (60000 : Int) ∣ x.startDate ∧ (60000 : Int) ∣ x.endDate :=
      fun x hx => hal x (List.mem_cons_of_mem _ hx)
    have hc1 : (60000 : Int) ∣ (if cursor < e.endDate then e.endDate else cursor) := by
      split <;> [exact he.2; exact hc]
    have hcle : cursor ≤ (if cursor < e.endDate then e.endDate else cursor) := by
      split <;> omega
    have hece : e.endDate ≤ (if cursor < e.endDate then e.endDate else cursor) := by
      split <;> omega
    have hsort' := (List.pairwise_cons.1 hsort).2
    have hehd := (List.pairwise_cons.1 hsort).1
    rcases ih hsort' hal' _ _ hc1 s hs with h1 | h1
    · by_cases hlt : cursor < e.startDate
      · rw [if_pos hlt] at h1
        rcases mem_carveLoop_bounds config now e.startDate hmin hminmax he.1 _ _ _ _
            hc h1 with h2 | h2
        · exact Or.inl h2
        · refine Or.inr ⟨h2.1, ⟨e, List.mem_cons_self e es, h2.2⟩, ?_⟩
          intro b hb
          rcases List.mem_cons.1 hb with hbe | hbe
          · subst hbe; intro hcon; omega
          · have := hehd b hbe
            intro hcon
            have := h2.2
            omega
      · rw [if_neg hlt] at h1
        exact Or.inl h1
    · obtain ⟨hcs, ⟨e', he', hse⟩, hnov⟩ := h1
      refine Or.inr ⟨le_trans hcle hcs, ⟨e', List.mem_cons_of_mem _ he', hse⟩, ?_⟩
      intro b hb
      rcases List.mem_cons.1 hb with hbe | hbe
      · subst hbe; intro hcon; omega
      · exact hnov b hbe

/-! Helper lemmas about `processDay` and `findFreeSlots`. -/

/-- Unfolded form of one `processDay` step. -/
theorem processDay_eq (busyEvents : List BusyEvent) (config : FreeSlotConfig)
    (now : Int) (slots : List SuggestedSlot) (dayOffset : Nat) :
    processDay busyEvents config now slots dayOffset =
      (let r := List.foldl (processEvent config now)
          (slots, initialCursor dayOffset now (dayWindowStart config now dayOffset))
          (busyEvents.filter fun e => isSameDay e.startDate (startOfDay (addDays now dayOffset)));
       if r.2 < dayWindowEnd config now dayOffset then
         carveLoop config now (dayWindowEnd config now dayOffset)
           (carveFuel r.2 (dayWindowEnd config now dayOffset)) r.2 r.1
       else r.1) := rfl

/-- Any property that every carved slot enjoys is enjoyed by every slot the
event walk adds. -/
theorem mem_foldl_processEvent_of_carve (config : FreeSlotConfig) (now : Int)
    (P : SuggestedSlot → Prop)
    (hcarve : ∀ ge fuel gs slots s, s ∈ carveLoop config now ge fuel gs slots →
      s ∈ slots ∨ P s) :
    ∀ (events : List BusyEvent) state s,
      s ∈ (List.foldl (processEvent config now) state events).1 → s ∈ state.1 ∨ P s := by
  intro events
  induction events with
  | nil => intro state s hs; exact Or.inl hs
  | cons e es ih =>
    intro state s hs
    rw [List.foldl_cons] at hs
    rcases ih _ _ hs with h1 | h1
    · rcases state with ⟨slots, cursor⟩
      rw [processEvent_eq] at h1
      dsimp at h1
      split at h1
      · exact hcarve _ _ _ _ _ h1
      · exact Or.inl h1
    · exact Or.inr h1

/-- Any property that every carved slot enjoys is enjoyed by every slot a day
scan adds. -/
theorem mem_processDay_of_carve (busyEvents : List BusyEvent) (config : FreeSlotConfig)
    (now : Int) (P : SuggestedSlot → Prop)
    (hcarve : ∀ ge fuel gs slots s, s ∈ carveLoop config now ge fuel gs slots →
      s ∈ slots ∨ P s) :
    ∀ slots dayOffset s, s ∈ processDay busyEvents config now slots dayOffset →
      s ∈ slots ∨ P s := by
  intro slots dayOffset s hs
  rw [processDay_eq] at hs
  dsimp at hs
  split at hs
  · rcases hcarve _ _ _ _ _ hs with h1 | h1
    · exact mem_foldl_processEvent_of_carve config now P hcarve _ _ _ h1
    · exact Or.inr h1
  · exact mem_foldl_processEvent_of_carve config now P hcarve _ _ _ hs

/-- Propagation of a per-day property through the day loop. -/
theorem mem_foldl_processDay (busyEvents : List BusyEvent) (config : FreeSlotConfig)
    (now : Int) (P : SuggestedSlot → Prop) :
    ∀ (l : List Nat),
      (∀ slots d s, d ∈ l → s ∈ processDay busyEvents config now slots d →
        s ∈ slots ∨ P s) →
      ∀ acc s, s ∈ List.foldl (processDay busyEvents config now) acc l →
        s ∈ acc ∨ P s := by
  intro l
  induction l with
  | nil => intro _ acc s hs; exact Or.inl hs
  | cons d ds ih =>
    intro hstep acc s hs
    rw [List.foldl_cons] at hs
    rcases ih (fun slots d' s' hd' => hstep slots d' s' (List.mem_cons_of_mem _ hd')) _ _ hs
        with h1 | h1
    · exact hstep _ _ _ (List.mem_cons_self d ds) h1
    · exact Or.inr h1

/-- Every slot of the result satisfies any property preserved by the day
steps. -/
theorem mem_findFreeSlots_aux (busyEvents : List BusyEvent) (config : FreeSlotConfig)
    (now : Int) (P : SuggestedSlot → Prop)
    (hstep : ∀ slots d s, d < config.days.toNat →
      s ∈ processDay busyEvents config now slots d → s ∈ slots ∨ P s) :
    ∀ s ∈ findFreeSlots busyEvents config now, P s := by
  intro s hs
  unfold findFreeSlots at hs
  have hs2 := List.take_subset 10 _ hs
  rcases mem_foldl_processDay busyEvents config now P _
      (fun slots d s' hd => hstep slots d s' (List.mem_range.1 hd)) _ _ hs2 with h | h
  · simp at h
  · exact h

/-- Every slot of the result was built by `buildSlot`, starts no earlier than
`now`, and has the minimal or the maximal duration. -/
theorem mem_findFreeSlots_build (busyEvents : List BusyEvent) (config : FreeSlotConfig)
    (now : Int) :
    ∀ s ∈ findFreeSlots busyEvents config now,
      s = buildSlot s.startDate s.durationMinutes ∧ now ≤ s.startDate ∧
        (s.durationMinutes = config.minMinutes ∨ s.durationMinutes = config.maxMinutes) := by
  refine mem_findFreeSlots_aux busyEvents config now _ ?_
  intro slots d s _ hs
  exact mem_processDay_of_carve busyEvents config now _
    (fun ge fuel gs sl s' h => mem_carveLoop config now ge fuel gs sl s' h) slots d s hs

/-- Minute alignment of an initial day cursor built from aligned inputs. -/
theorem initialCursor_dvd (dayOffset : Nat) (now windowStart : Int)
    (hnow : (60000 : Int) ∣ now) (hws : (60000 : Int) ∣ windowStart) :
    (60000 : Int) ∣ initialCursor dayOffset now windowStart := by
  unfold initialCursor
  split
  · omega
  · exact hws

/-- The initial day cursor never precedes the window start. -/
theorem le_initialCursor (dayOffset : Nat) (now windowStart : Int) :
    windowStart ≤ initialCursor dayOffset now windowStart := by
  unfold initialCursor
  split <;> omega

/-- With a well-formed configuration, aligned inputs, and every event starting
no later than the window end of its own day, every slot a day scan adds lies
inside the scan window of that day. -/
theorem mem_processDay_window (busyEvents : List BusyEvent) (config : FreeSlotConfig)
    (now : Int)
    (hmin : 1 ≤ config.minMinutes) (hminmax : config.minMinutes ≤ config.maxMinutes)
    (hnow : (60000 : Int) ∣ now)
    (hal : ∀ b ∈ busyEvents, (60000 : Int) ∣ b.startDate ∧ (60000 : Int) ∣ b.endDate)
    (hwin : ∀ b ∈ busyEvents, b.startDate ≤ setHour b.startDate config.dayEndHour) :
    ∀ slots dayOffset s, s ∈ processDay busyEvents config now slots dayOffset →
      s ∈ slots ∨
        (dayWindowStart config now dayOffset ≤ s.startDate ∧
         s.endDate ≤ dayWindowEnd config now dayOffset) := by
  intro slots dayOffset s hs
  rw [processDay_eq] at hs
  dsimp at hs
  have hwsdvd : (60000 : Int) ∣ dayWindowStart config now dayOffset :=
    minuteAligned_setHour _ _
  have hwedvd : (60000 : Int) ∣ dayWindowEnd config now dayOffset :=
    minuteAligned_setHour _ _
  have hc0dvd := initialCursor_dvd dayOffset now _ hnow hwsdvd
  have hc0ge := le_initialCursor dayOffset now (dayWindowStart config now dayOffset)
  have hal2 : ∀ e ∈ busyEvents.filter
      (fun e => isSameDay e.startDate (startOfDay (addDays now dayOffset))),
      (60000 : Int) ∣ e.startDate ∧ (60000 : Int) ∣ e.endDate :=
    fun e he => hal e (List.mem_of_mem_filter he)
  obtain ⟨ra, rb, _, rd⟩ := foldl_processEvent_facts config now hmin hminmax _ hal2 slots _ hc0dvd
  have hmemr : ∀ x ∈ (List.foldl (processEvent config now)
      (slots, initialCursor dayOffset now (dayWindowStart config now dayOffset))
      (busyEvents.filter fun e =>
        isSameDay e.startDate (startOfDay (addDays now dayOffset)))).1,
      x ∈ slots ∨
        (dayWindowStart config now dayOffset ≤ x.startDate ∧
         x.endDate ≤ dayWindowEnd config now dayOffset) := by
    intro x hx
    rcases rd x hx with h1 | h1
    · exact Or.inl h1
    · obtain ⟨hcx, e, he, hxe⟩ := h1
      have hsame : isSameDay e.startDate (startOfDay (addDays now dayOffset)) = true :=
        (List.mem_filter.1 he).2
      have hsame2 : startOfDay e.startDate = startOfDay (addDays now dayOffset) := by
        have := of_decide_eq_true hsame
        rw [this, startOfDay_idem]
      have hewin := hwin e (List.mem_of_mem_filter he)
      refine Or.inr ⟨le_trans hc0ge hcx, ?_⟩
      calc x.endDate ≤ e.startDate := hxe
        _ ≤ setHour e.startDate config.dayEndHour := hewin
        _ = dayWindowEnd config now dayOffset := by
            unfold setHour dayWindowEnd setHour
            rw [hsame2, startOfDay_idem]
  split at hs
  · rcases mem_carveLoop_bounds config now _ hmin hminmax hwedvd _ _ _ _ ra hs with h1 | h1
    · exact hmemr s h1
    · exact Or.inr ⟨le_trans (le_trans hc0ge rb) h1.1, h1.2⟩
  · exact hmemr s hs

/-- With a well-formed configuration, aligned inputs, events sorted by start
and each contained in its own day, no slot a day scan adds overlaps any busy
event of the input list. -/
theorem mem_processDay_noOverlap (busyEvents : List BusyEvent) (config : FreeSlotConfig)
    (now : Int)
    (hmin : 1 ≤ config.minMinutes) (hminmax : config.minMinutes ≤ config.maxMinutes)
    (hsh : 0 ≤ config.dayStartHour) (heh : config.dayEndHour ≤ 24)
    (hnow : (60000 : Int) ∣ now)
    (hal : ∀ b ∈ busyEvents, (60000 : Int) ∣ b.startDate ∧ (60000 : Int) ∣ b.endDate)
    (hday : ∀ b ∈ busyEvents, b.endDate ≤ startOfDay b.startDate + msPerDay)
    (hsorted : busyEvents.Pairwise fun a b => a.startDate ≤ b.startDate) :
    ∀ slots dayOffset s, s ∈ processDay busyEvents config now slots dayOffset →
      s ∈ slots ∨
        ∀ b ∈ busyEvents, ¬(s.startDate < b.endDate ∧ b.startDate < s.endDate) := by
  intro slots dayOffset s hs
  rw [processDay_eq] at hs
  dsimp at hs
  have hD : startOfDay (startOfDay (addDays now dayOffset)) =
      startOfDay (addDays now dayOffset) := startOfDay_idem _
  have hwsdvd : (60000 : Int) ∣ dayWindowStart config now dayOffset :=
    minuteAligned_setHour _ _
  have hwedvd : (60000 : Int) ∣ dayWindowEnd config now dayOffset :=
    minuteAligned_setHour _ _
  have hc0dvd := initialCursor_dvd dayOffset now _ hnow hwsdvd
  have hc0ge := le_initialCursor dayOffset now (dayWindowStart config now dayOffset)
  have hDws : startOfDay (addDays now dayOffset) ≤ dayWindowStart config now dayOffset := by
    have := startOfDay_le_setHour (startOfDay (addDays now dayOffset))
      config.dayStartHour hsh
    unfold dayWindowStart
    rw [hD] at this
    exact this
  have hweD : dayWindowEnd config now dayOffset ≤
      startOfDay (addDays now dayOffset) + msPerDay := by
    have := setHour_le_day_end (startOfDay (addDays now dayOffset)) config.dayEndHour heh
    unfold dayWindowEnd
    rw [hD] at this
    exact this
  have hal2 : ∀ e ∈ busyEvents.filter
      (fun e => isSameDay e.startDate (startOfDay (addDays now dayOffset))),
      (60000 : Int) ∣ e.startDate ∧ (60000 : Int) ∣ e.endDate :=
    fun e he => hal e (List.mem_of_mem_filter he)
  have hsorted2 : (busyEvents.filter fun e =>
      isSameDay e.startDate (startOfDay (addDays now dayOffset))).Pairwise
      (fun a b => a.startDate ≤ b.startDate) :=
    List.Pairwise.sublist (List.filter_sublist busyEvents) hsorted
  obtain ⟨ra, rb, rc, _⟩ := foldl_processEvent_facts config now hmin hminmax _ hal2 slots _ hc0dvd
  have rs := foldl_processEvent_sorted config now hmin hminmax _ hsorted2 hal2 slots _ hc0dvd
  -- a new slot contained in the scanned day that avoids the filtered events
  -- avoids every event of the input list
  have key : ∀ x : SuggestedSlot,
      startOfDay (addDays now dayOffset) ≤ x.startDate →
      x.endDate ≤ startOfDay (addDays now dayOffset) + msPerDay →
      (∀ b ∈ busyEvents.filter (fun e =>
        isSameDay e.startDate (startOfDay (addDays now dayOffset))),
        ¬(x.startDate < b.endDate ∧ b.startDate < x.endDate)) →
      ∀ b ∈ busyEvents, ¬(x.startDate < b.endDate ∧ b.startDate < x.endDate) := by
    intro x hx1 hx2 hx3 b hb
    by_cases hbd : isSameDay b.startDate (startOfDay (addDays now dayOffset)) = true
    · exact hx3 b (List.mem_filter.2 ⟨hb, hbd⟩)
    · have hbne : startOfDay b.startDate ≠ startOfDay (addDays now dayOffset) := by
        intro hcon
        exact hbd (decide_eq_true (by rw [hcon, hD]))
      have hbstart := startOfDay_le b.startDate
      have hbend := hday b hb
      rcases day_disjoint b.startDate (addDays now dayOffset) hbne with hcase | hcase
      · intro hcon
        have : b.endDate ≤ x.startDate := by
          unfold msPerDay at *
          omega
        omega
      · intro hcon
        have : x.endDate ≤ b.startDate := by
          unfold msPerDay at *
          omega
        omega
  split at hs
  · rename_i hlt
    rcases mem_carveLoop_bounds config now _ hmin hminmax hwedvd _ _ _ _ ra hs with h1 | h1
    · -- slot came from the event walk
      rcases rs s h1 with h2 | h2
      · exact Or.inl h2
      · obtain ⟨hcx, ⟨e, he, hxe⟩, hnov⟩ := h2
        have hsame2 : startOfDay e.startDate = startOfDay (addDays now dayOffset) := by
          have := of_decide_eq_true (List.mem_filter.1 he).2
          rw [this, hD]
        have heday := lt_startOfDay_add e.startDate
        refine Or.inr (key s (by omega) ?_ hnov)
        rw [hsame2] at heday
        omega
    · -- slot came from the tail carve
      refine Or.inr (key s (by omega) (by omega) ?_)
      intro b hb
      have := rc b hb
      intro hcon
      omega
  · rcases rs s hs with h2 | h2
    · exact Or.inl h2
    · obtain ⟨hcx, ⟨e, he, hxe⟩, hnov⟩ := h2
      have hsame2 : startOfDay e.startDate = startOfDay (addDays now dayOffset) := by
        have := of_decide_eq_true (List.mem_filter.1 he).2
        rw [this, hD]
      have heday := lt_startOfDay_add e.startDate
      refine Or.inr (key s (by omega) ?_ hnov)
      rw [hsame2] at heday
      omega

/-! Concrete fixtures used by counterexamples and witnesses.  Instants are
milliseconds from the local midnight of day 0, so 07:00 is 25200000,
08:00 is 28800000, and so on. -/

/-- One-day configuration with scan window 07:00-09:00, 15/30-minute slots. -/
def cfgOneDay79 : FreeSlotConfig :=
  { days := 1, minMinutes := 15, maxMinutes := 30, dayStartHour := 7, dayEndHour := 9 }

/-- One-day configuration with scan window 07:00-22:00, 15/30-minute slots. -/
def cfgOneDay722 : FreeSlotConfig :=
  { days := 1, minMinutes := 15, maxMinutes := 30, dayStartHour := 7, dayEndHour := 22 }

/-- One-day configuration with scan window 07:00-21:00, 15/30-minute slots. -/
def cfgOneDay721 : FreeSlotConfig :=
  { days := 1, minMinutes := 15, maxMinutes := 30, dayStartHour := 7, dayEndHour := 21 }

/-- Busy event 07:00-07:30 on day 0. -/
def evA : BusyEvent := { id := "A", startDate := 25200000, endDate := 27000000 }

/-- Busy event 08:00-08:30 on day 0. -/
def evB : BusyEvent := { id := "B", startDate := 28800000, endDate := 30600000 }

/-- Busy event 22:00-22:30 on day 0, after the 21:00 window end. -/
def evLate : BusyEvent := { id := "late", startDate := 79200000, endDate := 81000000 }

/-- C1 counterexample: the claim quantifies over every busy list, but
`findFreeSlots` walks the events in list order without sorting.  With the
unsorted list `[evB, evA]` at 07:00 the gap before `evB` is carved from
07:00, emitting the slot 07:00-07:30 even though `evA` occupies exactly
07:00-07:30, so that slot conflicts with `evA`. -/
theorem C1_no_overlap_counterexample :
    evA ∈ [evB, evA] ∧
    ((findFreeSlots [evB, evA] cfgOneDay79 25200000).any fun s =>
      hasConflict [evA] s.startDate s.endDate) = true := by
  constructor
  · decide
  · decide

/-- C1 (amended): when the busy list is sorted chronologically by start, all
event times and `now` are whole minutes, each event ends within its own
calendar day, and the configuration is well formed (positive minimum not
above the maximum, day hours within 0..24), every slot returned by
`findFreeSlots` is conflict-free against every busy event of the input. -/
theorem C1_no_overlap (busyEvents : List BusyEvent) (config : FreeSlotConfig) (now : Int)
    (hmin : 1 ≤ config.minMinutes) (hminmax : config.minMinutes ≤ config.maxMinutes)
    (hsh : 0 ≤ config.dayStartHour) (heh : config.dayEndHour ≤ 24)
    (hnow : (60000 : Int) ∣ now)
    (hal : ∀ b ∈ busyEvents, (60000 : Int) ∣ b.startDate ∧ (60000 : Int) ∣ b.endDate)
    (hday : ∀ b ∈ busyEvents, b.endDate ≤ startOfDay b.startDate + msPerDay)
    (hsorted : busyEvents.Pairwise fun a b => a.startDate ≤ b.startDate) :
    ∀ s ∈ findFreeSlots busyEvents config now, ∀ b ∈ busyEvents,
      hasConflict [b] s.startDate s.endDate = false := by
  intro s hs b hb
  have hmain := mem_findFreeSlots_aux busyEvents config now
    (fun s => ∀ b ∈ busyEvents, ¬(s.startDate < b.endDate ∧ b.startDate < s.endDate))
    (fun slots d s' _ hs' =>
      mem_processDay_noOverlap busyEvents config now hmin hminmax hsh heh hnow hal hday
        hsorted slots d s' hs') s hs
  have h2 := hmain b hb
  simp only [hasConflict, List.any_cons, List.any_nil, Bool.or_false, rangesOverlap,
    decide_eq_false_iff_not]
  exact h2

/-- C1 witness: a sorted, aligned, day-contained busy list with the slot
07:00-07:30 of the output and the event 08:00-08:30. -/
theorem C1_no_overlap_witness :
    (1 : Int) ≤ cfgOneDay79.minMinutes ∧
    hasConflict [evB] (buildSlot 25200000 30).startDate (buildSlot 25200000 30).endDate
      = false := by
  refine ⟨by decide, ?_⟩
  refine C1_no_overlap [evB] cfgOneDay79 25200000 (by decide) (by decide) (by decide)
    (by decide) ⟨420, by decide⟩ ?_ ?_ (by simp)
    (buildSlot 25200000 30) (by decide) evB (by decide)
  · intro b hb
    rw [List.mem_singleton] at hb
    subst hb
    exact ⟨⟨480, by decide⟩, ⟨510, by decide⟩⟩
  · intro b hb
    rw [List.mem_singleton] at hb
    subst hb
    decide

/-- C2: `hasConflict` is the half-open overlap test: it returns true exactly
when some busy interval satisfies `busyStart < end` and `start < busyEnd`,
and intervals that merely touch at an endpoint (10:00-10:30 against
10:30-11:00) do not conflict. -/
theorem C2_hasConflict_iff :
    (∀ (busyEvents : List BusyEvent) (start stop : Int),
      hasConflict busyEvents start stop = true ↔
        ∃ b ∈ busyEvents, b.startDate < stop ∧ start < b.endDate) ∧
    hasConflict [{ id := "busy", startDate := 36000000, endDate := 37800000 }]
      37800000 39600000 = false := by
  constructor
  · intro busy s e
    simp only [hasConflict, List.any_eq_true, rangesOverlap, decide_eq_true_eq]
    constructor
    · rintro ⟨b, hb, h1, h2⟩
      exact ⟨b, hb, h2, h1⟩
    · rintro ⟨b, hb, h1, h2⟩
      exact ⟨b, hb, h2, h1⟩
  · decide

/-- C3 counterexample: gap carving toward a busy event ignores the window
end.  At 20:50 with window 07:00-21:00 and a busy event at 22:00-22:30, the
gap 20:50-22:00 is carved, emitting slots that end after 21:00, outside the
scan window of their (only) day. -/
theorem C3_window_counterexample :
    ((findFreeSlots [evLate] cfgOneDay721 75000000).any fun s =>
      decide (dayWindowEnd cfgOneDay721 75000000 0 < s.endDate)) = true := by
  decide

/-- C3 (amended): every returned slot has the minimal or the maximal duration
(for all inputs); and when the configuration is well formed, the times are
whole minutes, and every busy event starts no later than the window end of
its own day, every returned slot lies inside the scan window of the day that
produced it. -/
theorem C3_duration_and_window :
    (∀ (busyEvents : List BusyEvent) (config : FreeSlotConfig) (now : Int),
      ∀ s ∈ findFreeSlots busyEvents config now,
        s.durationMinutes = config.minMinutes ∨ s.durationMinutes = config.maxMinutes) ∧
    (∀ (busyEvents : List BusyEvent) (config : FreeSlotConfig) (now : Int),
      1 ≤ config.minMinutes → config.minMinutes ≤ config.maxMinutes →
      (60000 : Int) ∣ now →
      (∀ b ∈ busyEvents, (60000 : Int) ∣ b.startDate ∧ (60000 : Int) ∣ b.endDate) →
      (∀ b ∈ busyEvents, b.startDate ≤ setHour b.startDate config.dayEndHour) →
      ∀ s ∈ findFreeSlots busyEvents config now,
        ∃ d : Nat, d < config.days.toNat ∧
          dayWindowStart config now d ≤ s.startDate ∧
          s.endDate ≤ dayWindowEnd config now d) := by
  constructor
  · intro busyEvents config now s hs
    exact (mem_findFreeSlots_build busyEvents config now s hs).2.2
  · intro busyEvents config now hmin hminmax hnow hal hwin
    exact mem_findFreeSlots_aux busyEvents config now
      (fun s => ∃ d : Nat, d < config.days.toNat ∧
        dayWindowStart config now d ≤ s.startDate ∧
        s.endDate ≤ dayWindowEnd config now d)
      (fun slots d s hd hs => by
        rcases mem_processDay_window busyEvents config now hmin hminmax hnow hal hwin
            slots d s hs with h | h
        · exact Or.inl h
        · exact Or.inr ⟨d, hd, h⟩)

/-- C3 witness: the slot 07:00-07:30 of the run against `[evB]` has the
maximal duration and lies inside the 07:00-09:00 window of day 0. -/
theorem C3_duration_and_window_witness :
    ((buildSlot 25200000 30).durationMinutes = cfgOneDay79.minMinutes ∨
      (buildSlot 25200000 30).durationMinutes = cfgOneDay79.maxMinutes) ∧
    (∃ d : Nat, d < cfgOneDay79.days.toNat ∧
      dayWindowStart cfgOneDay79 25200000 d ≤ (buildSlot 25200000 30).startDate ∧
      (buildSlot 25200000 30).endDate ≤ dayWindowEnd cfgOneDay79 25200000 d) := by
  constructor
  · exact C3_duration_and_window.1 [evB] cfgOneDay79 25200000
      (buildSlot 25200000 30) (by decide)
  · refine C3_duration_and_window.2 [evB] cfgOneDay79 25200000 (by decide) (by decide)
      ⟨420, by decide⟩ ?_ ?_ (buildSlot 25200000 30) (by decide)
    · intro b hb
      rw [List.mem_singleton] at hb
      subst hb
      exact ⟨⟨480, by decide⟩, ⟨510, by decide⟩⟩
    · intro b hb
      rw [List.mem_singleton] at hb
      subst hb
      decide

/-- C4: carving is greedy longest-first: with a well-formed configuration a
remaining gap at or above the maximum yields the maximal duration, a gap
between the minimum and the maximum yields the minimal duration, a gap below
the minimum yields nothing and the loop stops; and in the concrete example
(no busy events, 15/30 minutes, window 07:00-22:00, now 07:00) the first
candidate is 07:00-07:30 with 30 minutes and the second is 07:30-08:00. -/
theorem C4_greedy_carving :
    (∀ (g : Int) (config : FreeSlotConfig), config.minMinutes ≤ config.maxMinutes →
      config.maxMinutes ≤ g → chooseDuration g config = some config.maxMinutes) ∧
    (∀ (g : Int) (config : FreeSlotConfig), config.minMinutes ≤ g →
      g < config.maxMinutes → chooseDuration g config = some config.minMinutes) ∧
    (∀ (g : Int) (config : FreeSlotConfig), g < config.minMinutes →
      chooseDuration g config = none) ∧
    (∀ (config : FreeSlotConfig) (now gapEnd : Int) (fuel : Nat) (gapStart : Int)
      (slots : List SuggestedSlot), diffMinutes gapStart gapEnd < config.minMinutes →
      carveLoop config now gapEnd fuel gapStart slots = slots) ∧
    (findFreeSlots [] cfgOneDay722 25200000).take 2 =
      [buildSlot 25200000 30, buildSlot 27000000 30] := by
  refine ⟨?_, ?_, ?_, ?_, by decide⟩
  · intro g config h1 h2
    unfold chooseDuration
    rw [if_neg (by omega), if_pos h2]
  · intro g config h1 h2
    unfold chooseDuration
    rw [if_neg (by omega), if_neg (by omega)]
  · intro g config h1
    unfold chooseDuration
    rw [if_pos h1]
  · intro config now gapEnd fuel gapStart slots h
    exact carveLoop_short_gap config now gapEnd fuel gapStart slots h

/-- C4 witness: the three duration cases and the short-gap case at concrete
inputs of the 15/30 configuration. -/
theorem C4_greedy_carving_witness :
    chooseDuration 45 cfgOneDay722 = some 30 ∧
    chooseDuration 20 cfgOneDay722 = some 15 ∧
    chooseDuration 10 cfgOneDay722 = none ∧
    carveLoop cfgOneDay722 0 600000 5 0 [] = [] :=
  ⟨C4_greedy_carving.1 45 cfgOneDay722 (by decide) (by decide),
   C4_greedy_carving.2.1 20 cfgOneDay722 (by decide) (by decide),
   C4_greedy_carving.2.2.1 10 cfgOneDay722 (by decide),
   C4_greedy_carving.2.2.2.1 cfgOneDay722 0 600000 5 0 [] (by decide)⟩

/-- C5 counterexample: `now` is not supplied by the caller; the TS function
reads the wall clock internally (`const now = new Date()` at
CalendarService.ts:151).  Modelling that internal read as an input, two
calls with identical `(busyEvents, config)` but clock readings one minute
apart return different outputs, so the output is not a function of
`(busyEvents, config)` alone. -/
theorem C5_internal_clock_counterexample :
    findFreeSlots [] cfgOneDay722 25200000 ≠ findFreeSlots [] cfgOneDay722 25260000 := by
  decide

/-- C5 (amended): `findFreeSlots` reads `now` internally from the wall clock;
modelling that read as an explicit input, the function is a pure function of
`(busyEvents, config, now)` (so two calls with identical inputs and clock
readings agree), and a slot id depends only on `(startDate,
durationMinutes)`: slots with equal start and duration have equal ids even
across calls with different busy lists, configurations, or clock readings. -/
theorem C5_id_deterministic (busy1 : List BusyEvent) (config1 : FreeSlotConfig)
    (now1 : Int) (busy2 : List BusyEvent) (config2 : FreeSlotConfig) (now2 : Int)
    (s1 s2 : SuggestedSlot)
    (h1 : s1 ∈ findFreeSlots busy1 config1 now1)
    (h2 : s2 ∈ findFreeSlots busy2 config2 now2)
    (hstart : s1.startDate = s2.startDate)
    (hdur : s1.durationMinutes = s2.durationMinutes) :
    s1.id = s2.id := by
  have e1 := (mem_findFreeSlots_build busy1 config1 now1 s1 h1).1
  have e2 := (mem_findFreeSlots_build busy2 config2 now2 s2 h2).1
  calc s1.id = (buildSlot s1.startDate s1.durationMinutes).id := by rw [← e1]
    _ = (buildSlot s2.startDate s2.durationMinutes).id := by rw [hstart, hdur]
    _ = s2.id := by rw [← e2]

/-- C5 witness: the 07:00 slot appears both with an empty busy list and with
`[evB]`, and its id agrees across the two calls. -/
theorem C5_id_deterministic_witness :
    buildSlot 25200000 30 ∈ findFreeSlots [] cfgOneDay722 25200000 ∧
    buildSlot 25200000 30 ∈ findFreeSlots [evB] cfgOneDay722 25200000 ∧
    (buildSlot 25200000 30).id = (buildSlot 25200000 30).id :=
  ⟨by decide, by decide,
   C5_id_deterministic [] cfgOneDay722 25200000 [evB] cfgOneDay722 25200000
     (buildSlot 25200000 30) (buildSlot 25200000 30) (by decide) (by decide) rfl rfl⟩

/-- C6 counterexample: the two orderings of the same two events are a
permutation of each other, yet they produce different outputs (the sorted
order yields 2 slots, the reversed order yields 3, one of which overlaps an
event), so the result is not invariant under permutation of the busy list. -/
theorem C6_perm_counterexample :
    List.Perm [evA, evB] [evB, evA] ∧
    findFreeSlots [evA, evB] cfgOneDay79 25200000 ≠
      findFreeSlots [evB, evA] cfgOneDay79 25200000 := by
  constructor
  · exact List.Perm.swap evB evA []
  · decide

/-- C6 (amended): `findFreeSlots` walks the filtered busy intervals of each
day in the order they appear in the input list, without sorting, so its
output is not invariant under permutation of the busy input. -/
theorem C6_not_perm_invariant :
    ¬ ∀ (busy busy' : List BusyEvent) (config : FreeSlotConfig) (now : Int),
        List.Perm busy busy' →
        findFreeSlots busy config now = findFreeSlots busy' config now := by
  intro h
  have := h [evA, evB] [evB, evA] cfgOneDay79 25200000 (List.Perm.swap evB evA [])
  revert this
  decide

/-- C7: on day offset 0 the scan cursor starts at `max(now, windowStart)`, on
every later day offset it starts exactly at `windowStart`, and every
returned slot starts no earlier than `now`. -/
theorem C7_never_past :
    (∀ now windowStart : Int, initialCursor 0 now windowStart = max now windowStart) ∧
    (∀ (d : Nat) (now windowStart : Int), d ≠ 0 →
      initialCursor d now windowStart = windowStart) ∧
    (∀ (busyEvents : List BusyEvent) (config : FreeSlotConfig) (now : Int),
      ∀ s ∈ findFreeSlots busyEvents config now, now ≤ s.startDate) := by
  refine ⟨?_, ?_, ?_⟩
  · intro now ws
    unfold initialCursor
    rw [if_pos rfl]
  · intro d now ws hd
    unfold initialCursor
    rw [if_neg hd]
  · intro busyEvents config now s hs
    exact (mem_findFreeSlots_build busyEvents config now s hs).2.1

/-- C7 witness: the later-day cursor rule and the no-past rule at the 07:00
run with an empty busy list. -/
theorem C7_never_past_witness :
    (1 : Nat) ≠ 0 ∧ initialCursor 1 99 25200000 = 25200000 ∧
    (25200000 : Int) ≤ (buildSlot 25200000 30).startDate :=
  ⟨by decide, C7_never_past.2.1 1 99 25200000 (by decide),
   C7_never_past.2.2 [] cfgOneDay722 25200000 (buildSlot 25200000 30) (by decide)⟩

/-- C8: the returned list never has more than 10 slots, for every busy list,
configuration and clock reading. -/
theorem C8_hard_cap :
    ∀ (busyEvents : List BusyEvent) (config : FreeSlotConfig) (now : Int),
      (findFreeSlots busyEvents config now).length ≤ 10 := by
  intro busyEvents config now
  unfold findFreeSlots
  exact List.length_take_le 10 _

/-- C9: each carving `while` loop terminates for every well-formed
configuration: the fuel `carveFuel` used at both carve sites of
`findFreeSlots` outlasts the loop, so granting any extra fuel leaves the
result unchanged — the loop always exits through its own guard.  The
remaining iteration of `findFreeSlots` is structural recursion over the
(finite) day range and event list, and `hasConflict` is a total function by
construction, so the whole scan is total over well-formed input. -/
theorem C9_termination (config : FreeSlotConfig)
    (hmin : 1 ≤ config.minMinutes) (hminmax : config.minMinutes ≤ config.maxMinutes) :
    ∀ (now gapEnd gapStart : Int) (slots : List SuggestedSlot) (extra : Nat),
      carveLoop config now gapEnd (carveFuel gapStart gapEnd + extra) gapStart slots =
        carveLoop config now gapEnd (carveFuel gapStart gapEnd) gapStart slots := by
  intro now gapEnd gapStart slots extra
  exact carveLoop_fuel_stable config now gapEnd hmin hminmax _ gapStart slots
    (le_refl _) extra

/-- C9 witness: a 30-minute gap with 7 units of extra fuel. -/
theorem C9_termination_witness :
    1 ≤ cfgOneDay722.minMinutes ∧
    carveLoop cfgOneDay722 0 1800000 (carveFuel 0 1800000 + 7) 0 [] =
      carveLoop cfgOneDay722 0 1800000 (carveFuel 0 1800000) 0 [] :=
  ⟨by decide, C9_termination cfgOneDay722 (by decide) (by decide) 0 1800000 0 [] 7⟩

/-- C10 counterexample: at noon with no surviving slots the fallback slot is
capped at 30 minutes (12:15-12:45); it does not extend to the end of the
day (23:59:59.999). -/
theorem C10_fallback_counterexample :
    fallbackSlots [] 43200000 =
      [{ id := "44100000-fallback", startDate := 44100000, endDate := 45900000,
         durationMinutes := 30, status := SlotStatus.available }] ∧
    (45900000 : Int) < endOfToday 43200000 := by
  constructor
  · decide
  · decide

/-- C10 (amended): when zero candidate slots survive the sync filter and at
least 15 minutes remain between `now + 15min` and the end of the day,
exactly one slot is synthesized starting at `now + 15min` with duration
`min(30, minutesLeft)` minutes — at most 30 minutes, not necessarily
reaching the end of the day. -/
theorem C10_fallback_slot (free : List SuggestedSlot) (now : Int)
    (hempty : filterToday free now = [])
    (hleft : 15 ≤ min 30 (minutesLeft now)) :
    fallbackSlots free now =
      [{ id := toString (now + minFutureBufferMinutes * 60000) ++ "-fallback"
         startDate := now + minFutureBufferMinutes * 60000
         endDate := now + minFutureBufferMinutes * 60000 + min 30 (minutesLeft now) * 60000
         durationMinutes := min 30 (minutesLeft now)
         status := SlotStatus.available }] := by
  have hmax : max 0 (min 30 (minutesLeft now)) = min 30 (minutesLeft now) := by omega
  unfold fallbackSlots
  rw [hempty]
  dsimp only
  simp only [List.length_nil, if_true]
  rw [hmax, if_pos hleft]

/-- C10 witness: the noon run with an empty slot list. -/
theorem C10_fallback_slot_witness :
    filterToday [] 43200000 = [] ∧
    fallbackSlots [] 43200000 =
      [{ id := "44100000-fallback", startDate := 44100000, endDate := 45900000,
         durationMinutes := 30, status := SlotStatus.available }] := by
  refine ⟨by decide, ?_⟩
  rw [C10_fallback_slot [] 43200000 (by decide) (by decide)]
  decide

end WellnessReset
